import Mathlib

/-!
Shallow embedding of the foldingathome_exporter collection pipeline
(src/main.go) and proofs about its specified behavior.

Modelling conventions:
* Go `float64` metric values are modelled as exact rationals (`Rat`); every
  value occurring in the statements below is exactly representable.
* Go `time.Duration` is an `Int` count of nanoseconds; `Duration.Seconds()`
  is division by 10^9 in `Rat`.
* Go's dynamic `interface{}` values inside the info tree are modelled by the
  inductive `GoVal`; a failed type assertion or an out-of-range index is a
  panic, tracked explicitly.
* The prometheus channel is modelled by returning the list of metrics in
  emission order.
-/

/-- Outcome of one parser call: the Go `error` result, or a runtime panic. -/
inductive ParseOut where
  | ok
  | err
  | panic
deriving DecidableEq, Repr

/-- A metric record sent on the prometheus channel: fully-qualified name,
ordered label pairs, gauge value. -/
structure Metric where
  name : String
  labels : List (String × String)
  value : Rat
deriving DecidableEq, Repr

/-- Model of prometheus.BuildFQName: joins the nonempty parts with "_". -/
def buildFQName (ns sub nm : String) : String :=
  if nm = "" then ""
  else if ns ≠ "" ∧ sub ≠ "" then ns ++ "_" ++ sub ++ "_" ++ nm
  else if ns ≠ "" then ns ++ "_" ++ nm
  else if sub ≠ "" then sub ++ "_" ++ nm
  else nm

def namespaceStr : String := "foldingathome"

def subsystemSlot : String := "slot"

def subsystemWorkUnit : String := "work_unit"

def upName : String := buildFQName namespaceStr "" "up"

def uptimeName : String := buildFQName namespaceStr "" "uptime_seconds"

def timeName : String := buildFQName namespaceStr "" "time_seconds"

def versionName : String := buildFQName namespaceStr "" "version"

def slotStatusName : String := buildFQName namespaceStr subsystemSlot "status"

def slotAttemptsName : String := buildFQName namespaceStr subsystemSlot "attempts"

def slotNextAttemptName : String := buildFQName namespaceStr subsystemSlot "next_attempt_seconds"

def slotPPDName : String := buildFQName namespaceStr subsystemSlot "estimated_points_per_day"

def wuPercentName : String := buildFQName namespaceStr subsystemWorkUnit "steps_completed_percent"

def wuCreditName : String := buildFQName namespaceStr subsystemWorkUnit "credit_estimate_points"

def wuEtaName : String := buildFQName namespaceStr subsystemWorkUnit "estimated_completion_seconds"

def wuTimeRemainingName : String := buildFQName namespaceStr subsystemWorkUnit "time_remaining_seconds"

/-- The twelve descriptors constructed in NewExporter, in struct order. -/
def exporterDescriptors : List String :=
  [upName, uptimeName, timeName, versionName, slotStatusName, slotAttemptsName,
   slotNextAttemptName, slotPPDName, wuPercentName, wuCreditName, wuEtaName,
   wuTimeRemainingName]

/-- The descriptors sent by Describe, in send order (src/main.go lines
128-140); slotEstimatedPointsPerDay is absent. -/
def describedDescriptors : List String :=
  [upName, uptimeName, timeName, versionName, slotStatusName, slotAttemptsName,
   slotNextAttemptName, wuPercentName, wuCreditName, wuEtaName,
   wuTimeRemainingName]

/-- Seconds of a Go time.Duration (nanosecond count), as an exact
rational: the value ns / 10^9, written with Rat.divInt so that concrete
instances evaluate. -/
def durationSeconds (ns : Int) : Rat := Rat.divInt ns 1000000000

/-- strings.ToLower as this exporter needs it: simple lowercase mapping,
character by character (the status and state texts are ASCII). -/
def goToLower (s : String) : String := String.mk (s.toList.map Char.toLower)

/-- TrimSuffix with the single-character suffix consisting of one
backslash, as applied by parseUptime and parseDate. -/
def trimTrailingBackslash (s : String) : String :=
  match s.toList.getLast? with
  | some c => if c = '\\' then String.mk s.toList.dropLast else s
  | none => s

/-- TrimSuffix with the suffix percent sign, as applied to PercentDone. -/
def trimPercentSuffix (s : String) : String :=
  match s.toList.getLast? with
  | some c => if c = '%' then String.mk s.toList.dropLast else s
  | none => s

/-- strings.ReplaceAll with old " " and new "": removes every space. -/
def removeSpaces (s : String) : String :=
  String.mk (s.toList.filter (fun c => c ≠ ' '))

/-- Digit value of an ASCII digit character. -/
def digitVal (c : Char) : Nat := c.toNat - 48

/-- Go time's leadingInt: consume leading decimal digits into an
accumulator, failing (none) on uint64-range overflow exactly as Go does. -/
def goLeadingInt : List Char → Nat → Option (Nat × List Char)
  | [], x => some (x, [])
  | c :: rest, x =>
    if c.isDigit then
      if x > 922337203685477580 then none
      else
        let x2 := x * 10 + digitVal c
        if x2 > 9223372036854775808 then none
        else goLeadingInt rest x2
    else some (x, c :: rest)

/-- Go time's leadingFraction: consume digits after the decimal point,
tracking the power-of-ten scale and saturating on overflow. -/
def goLeadingFraction : List Char → Nat → Nat → Bool → Nat × Nat × List Char
  | [], x, scale, _ => (x, scale, [])
  | c :: rest, x, scale, overflow =>
    if c.isDigit then
      if overflow then goLeadingFraction rest x scale overflow
      else if x > 922337203685477580 then goLeadingFraction rest x scale true
      else
        let y := x * 10 + digitVal c
        if y > 9223372036854775808 then goLeadingFraction rest x scale true
        else goLeadingFraction rest y (scale * 10) overflow
    else (x, scale, c :: rest)

/-- Consume the unit token: everything up to the next digit or period. -/
def takeUnitToken : List Char → List Char × List Char
  | [] => ([], [])
  | c :: rest =>
    if c = '.' ∨ c.isDigit then ([], c :: rest)
    else
      let (u, r) := takeUnitToken rest
      (c :: u, r)

/-- Go time's unitMap restricted to the units ParseDuration knows;
values are nanoseconds per unit. A "d" day unit is absent. -/
def durUnitMap (u : String) : Option Nat :=
  if u = "ns" then some 1
  else if u = "us" then some 1000
  else if u = "µs" then some 1000
  else if u = "μs" then some 1000
  else if u = "ms" then some 1000000
  else if u = "s" then some 1000000000
  else if u = "m" then some 60000000000
  else if u = "h" then some 3600000000000
  else none

/-- Main loop of Go's time.ParseDuration over the remaining characters.
The fuel argument (initialised to the input length + 1) only bounds
recursion; every loop iteration consumes at least one character, so the
fuel never runs out on reachable inputs. Fractional parts are combined
with exact rational arithmetic truncated to an integer, where Go uses
float64; no input considered in this development has a fractional part. -/
def goDurLoop : Nat → List Char → Nat → Option Nat
  | 0, _, _ => none
  | _ + 1, [], d => some d
  | fuel + 1, c :: cs, d =>
    if ¬(c = '.' ∨ c.isDigit) then none
    else
      match goLeadingInt (c :: cs) 0 with
      | none => none
      | some (v, s1) =>
        let pre := s1.length ≠ (c :: cs).length
        let fsr : Nat × Nat × List Char × Bool :=
          match s1 with
          | '.' :: s1' =>
            let (f, sc, r) := goLeadingFraction s1' 0 1 false
            (f, sc, r, r.length ≠ s1'.length)
          | _ => (0, 1, s1, false)
        let f := fsr.1
        let scale := fsr.2.1
        let s2 := fsr.2.2.1
        let post := fsr.2.2.2
        if ¬pre ∧ ¬post then none
        else
          let (u, s3) := takeUnitToken s2
          if u = [] then none
          else
            match durUnitMap (String.mk u) with
            | none => none
            | some unit =>
              if v > 9223372036854775808 / unit then none
              else
                let v1 := v * unit
                let vv : Option Nat :=
                  if f > 0 then
                    let vf := v1 + (f * unit) / scale
                    if vf > 9223372036854775808 then none else some vf
                  else some v1
                match vv with
                | none => none
                | some v2 =>
                  let d2 := d + v2
                  if d2 > 9223372036854775808 then none
                  else goDurLoop fuel s3 d2

/-- Go's time.ParseDuration: returns the duration in nanoseconds, or
none on any parse error. -/
def parseGoDuration (s : String) : Option Int :=
  let cs := s.toList
  let signed : Bool × List Char :=
    match cs with
    | '-' :: r => (true, r)
    | '+' :: r => (false, r)
    | _ => (false, cs)
  let neg := signed.1
  let cs1 := signed.2
  if cs1 = ['0'] then some 0
  else if cs1 = [] then none
  else
    match goDurLoop (cs1.length + 1) cs1 0 with
    | none => none
    | some d =>
      if neg then some (-(d : Int))
      else if d > 9223372036854775807 then none
      else some (d : Int)

/-- Consume a maximal run of ASCII digits. -/
def spanDigits : List Char → List Char × List Char
  | [] => ([], [])
  | c :: r =>
    if c.isDigit then
      let (d, rest) := spanDigits r
      (c :: d, rest)
    else ([], c :: r)

/-- Numeric value of a digit run. -/
def digitsToNat (ds : List Char) : Nat :=
  ds.foldl (fun a c => a * 10 + digitVal c) 0

/-- The exact rational value of a signed decimal: sign times the number
with integer digits ip and fractional digits fp, scaled by 10^e. -/
def decimalToRat (sign : Int) (ip fp : List Char) (e : Int) : Rat :=
  let n : Int := (digitsToNat (ip ++ fp) : Int)
  let k := fp.length
  if 0 ≤ e then Rat.divInt (sign * n * ((10 ^ e.toNat : Nat) : Int)) ((10 ^ k : Nat) : Int)
  else Rat.divInt (sign * n) ((10 ^ (k + (-e).toNat) : Nat) : Int)

/-- strconv.ParseFloat on the decimal forms exercised by this exporter:
optional sign, digits with optional fractional part (at least one digit
overall), optional decimal exponent. The value is kept as an exact
rational where Go rounds to the nearest float64; inf/nan/hex forms are
not modelled. -/
def goParseFloat (s : String) : Option Rat :=
  let cs := s.toList
  let signed : Int × List Char :=
    match cs with
    | '-' :: r => (-1, r)
    | '+' :: r => (1, r)
    | _ => (1, cs)
  let sign := signed.1
  let cs1 := signed.2
  let (ip, cs2) := spanDigits cs1
  let fpr : List Char × List Char :=
    match cs2 with
    | '.' :: r => spanDigits r
    | _ => ([], cs2)
  let fp := fpr.1
  let cs3 := if cs2.head? = some '.' then fpr.2 else cs2
  if ip = [] ∧ fp = [] then none
  else
    match cs3 with
    | [] => some (decimalToRat sign ip fp 0)
    | e :: r =>
      if e = 'e' ∨ e = 'E' then
        let esigned : Int × List Char :=
          match r with
          | '-' :: rr => (-1, rr)
          | '+' :: rr => (1, rr)
          | _ => (1, r)
        let (ed, r2) := spanDigits esigned.2
        if ed = [] ∨ r2 ≠ [] then none
        else some (decimalToRat sign ip fp (esigned.1 * (digitsToNat ed : Int)))
      else none

/-- Leap-year rule of the proleptic Gregorian calendar. -/
def isLeapYear (y : Nat) : Bool := (y % 4 = 0 ∧ y % 100 ≠ 0) ∨ y % 400 = 0

/-- Number of days in a month. -/
def daysInMonth (y m : Nat) : Nat :=
  if m = 1 ∨ m = 3 ∨ m = 5 ∨ m = 7 ∨ m = 8 ∨ m = 10 ∨ m = 12 then 31
  else if m = 4 ∨ m = 6 ∨ m = 9 ∨ m = 11 then 30
  else if m = 2 then (if isLeapYear y then 29 else 28)
  else 0

/-- Days from the Unix epoch to the given civil date (may be negative). -/
def daysFromCivil (y m d : Nat) : Int :=
  let yy : Int := (y : Int) - (if m ≤ 2 then 1 else 0)
  let era : Int := Int.fdiv yy 400
  let yoe : Int := yy - era * 400
  let mp : Int := ((m : Int) + 9) % 12
  let doy : Int := (153 * mp + 2) / 5 + (d : Int) - 1
  let doe : Int := yoe * 365 + yoe / 4 - yoe / 100 + doy
  era * 146097 + doe - 719468

/-- Parse exactly two ASCII digits. -/
def parseFixed2 : List Char → Option (Nat × List Char)
  | a :: b :: rest =>
    if a.isDigit ∧ b.isDigit then some (digitVal a * 10 + digitVal b, rest)
    else none
  | _ => none

/-- Parse exactly four ASCII digits. -/
def parseFixed4 : List Char → Option (Nat × List Char)
  | a :: b :: c :: d :: rest =>
    if a.isDigit ∧ b.isDigit ∧ c.isDigit ∧ d.isDigit then
      some (((digitVal a * 10 + digitVal b) * 10 + digitVal c) * 10 + digitVal d, rest)
    else none
  | _ => none

/-- Expect one given character. -/
def expectChar (c : Char) : List Char → Option (List Char)
  | x :: rest => if x = c then some rest else none
  | [] => none

/-- Parse the trailing timezone part of an RFC 3339 timestamp: the letter
Z for UTC, or a numeric offset sign hh colon mm. Returns the offset in
seconds east of UTC. -/
def parseTZOffset : List Char → Option Int
  | ['Z'] => some 0
  | c :: a :: b :: ':' :: x :: y :: [] =>
    if (c = '+' ∨ c = '-') ∧ a.isDigit ∧ b.isDigit ∧ x.isDigit ∧ y.isDigit then
      let hh := digitVal a * 10 + digitVal b
      let mm := digitVal x * 10 + digitVal y
      if hh ≤ 23 ∧ mm ≤ 59 then
        let secs : Int := (hh : Int) * 3600 + (mm : Int) * 60
        some (if c = '-' then -secs else secs)
      else none
    else none
  | _ => none

/-- Go's time.Parse with the RFC3339 layout, reduced to the Unix-seconds
result that parseDate uses (fractional seconds are parsed and discarded,
exactly as Unix() discards them). Returns none on any parse error,
including out-of-range calendar components. -/
def parseRFC3339 (s : String) : Option Int := do
  let cs := s.toList
  let (y, r1) ← parseFixed4 cs
  let r2 ← expectChar '-' r1
  let (mo, r3) ← parseFixed2 r2
  let r4 ← expectChar '-' r3
  let (d, r5) ← parseFixed2 r4
  let r6 ← expectChar 'T' r5
  let (h, r7) ← parseFixed2 r6
  let r8 ← expectChar ':' r7
  let (mi, r9) ← parseFixed2 r8
  let r10 ← expectChar ':' r9
  let (sec, r11) ← parseFixed2 r10
  let r12 : List Char :=
    match r11 with
    | c :: rest =>
      if c = '.' ∨ c = ',' then
        let (ds, rest2) := spanDigits rest
        if ds = [] then r11 else rest2
      else r11
    | [] => r11
  let off ← parseTZOffset r12
  if 1 ≤ mo ∧ mo ≤ 12 ∧ 1 ≤ d ∧ d ≤ daysInMonth y mo ∧ h ≤ 23 ∧ mi ≤ 59 ∧ sec ≤ 59 then
    some (daysFromCivil y mo d * 86400 + (h : Int) * 3600 + (mi : Int) * 60 + (sec : Int) - off)
  else none

/-- A Go interface value as it can occur inside the info reply tree. -/
inductive GoVal where
  | str (s : String)
  | list (xs : List GoVal)
  | other

/-- Result of scanning the info tree for the FAHClient Version entry.
A panic arises from an out-of-range index or a failed type assertion,
exactly where src/main.go parseInfo performs one. -/
inductive InfoStep where
  | panic
  | found (v : String)
  | notFound
deriving DecidableEq

/-- Scan the pairs of a FAHClient section (the section minus its head),
mirroring the inner loop of parseInfo: each element must type-assert to
a list, its first element (indexing panics on an empty list) must
type-assert to a string, and when that key is Version the second element
(again panicking when absent) must type-assert to a string. -/
def scanPairs : List GoVal → InfoStep
  | [] => .notFound
  | p :: rest =>
    match p with
    | .list tp =>
      match tp with
      | [] => .panic
      | k :: rest2 =>
        match k with
        | .str ks =>
          if ks = "Version" then
            match rest2 with
            | [] => .panic
            | v :: _ =>
              match v with
              | .str vs => .found vs
              | _ => .panic
          else scanPairs rest
        | _ => .panic
    | _ => .panic

/-- Scan the sections of the info tree, mirroring the outer loop of
parseInfo: indexing the section head panics on an empty section, the
head must type-assert to a string, and a FAHClient section without a
Version pair falls through to the remaining sections. -/
def scanSections : List (List GoVal) → InfoStep
  | [] => .notFound
  | sec :: rest =>
    match sec with
    | [] => .panic
    | h :: tail =>
      match h with
      | .str hs =>
        if hs = "FAHClient" then
          match scanPairs tail with
          | .panic => .panic
          | .found v => .found v
          | .notFound => scanSections rest
        else scanSections rest
      | _ => .panic

/-- parseInfo (src/main.go lines 235-252): emits the version presence
metric on success, reports a not-found error when no Version entry
exists, and panics on malformed sections. -/
def parseInfo (info : List (List GoVal)) : List Metric × ParseOut :=
  match scanSections info with
  | .found v => ([⟨versionName, [("version", v)], 1⟩], .ok)
  | .notFound => ([], .err)
  | .panic => ([], .panic)

/-- parseUptime (src/main.go lines 200-211): strip the trailing
continuation backslash and all spaces, parse as a Go duration, emit the
total seconds. -/
def parseUptime (uptime : String) : List Metric × ParseOut :=
  match parseGoDuration (removeSpaces (trimTrailingBackslash uptime)) with
  | some ns => ([⟨uptimeName, [], durationSeconds ns⟩], .ok)
  | none => ([], .err)

/-- parseDate (src/main.go lines 214-224): strip the trailing
continuation backslash, parse as RFC 3339, emit the Unix seconds. -/
def parseDate (date : String) : List Metric × ParseOut :=
  match parseRFC3339 (trimTrailingBackslash date) with
  | some t => ([⟨timeName, [], (t : Rat)⟩], .ok)
  | none => ([], .err)

/-- A fahapi.SlotInfo record as consumed by this exporter. -/
structure SlotInfo where
  ID : String
  Description : String
  Status : String
deriving DecidableEq, Repr

/-- A fahapi.SlotQueueInfo record, restricted to the fields this exporter
reads. Durations are nanosecond counts. -/
structure SlotQueueInfo where
  Slot : String
  State : String
  Project : Int
  Run : Int
  Clone : Int
  Gen : Int
  Attempts : Int
  NextAttempt : Int
  PPD : Int
  PercentDone : String
  CreditEstimate : Int
  ETA : Int
  TimeRemaining : Int
deriving DecidableEq, Repr

/-- The zero value of a SlotInfo, produced by a Go map lookup miss. -/
def zeroSlot : SlotInfo := ⟨"", "", ""⟩

/-- Go map semantics for the slot lookup built in parseQueueInfo: the map
is populated by iterating the slot list (a later record with the same ID
overwrites an earlier one), and a miss returns the zero value. -/
def slotLookup (slotInfo : List SlotInfo) (key : String) : SlotInfo :=
  match (slotInfo.filter (fun s => s.ID == key)).getLast? with
  | some s => s
  | none => zeroSlot

/-- The status table of parseSlotInfo; a Go map lookup of an absent key
yields the zero value 0. -/
def statusMap (s : String) : Rat :=
  if s = "ready" then 1
  else if s = "download" then 2
  else if s = "running" then 3
  else if s = "upload" then 4
  else if s = "finishing" then 5
  else if s = "stopping" then 6
  else if s = "paused" then 7
  else 0

/-- The single status gauge emitted for one slot record. -/
def slotStatusMetric (info : SlotInfo) : Metric :=
  ⟨slotStatusName, [("id", info.ID), ("slot_description", info.Description)],
   statusMap (goToLower info.Status)⟩

/-- parseSlotInfo (src/main.go lines 254-270): one status gauge per slot,
never an error. -/
def parseSlotInfo (slotInfo : List SlotInfo) : List Metric × ParseOut :=
  (slotInfo.map (fun info =>
    ⟨slotStatusName, [("id", info.ID), ("slot_description", info.Description)],
     statusMap (goToLower info.Status)⟩), .ok)

/-- The two-label set shared by the slot-level queue metrics. -/
def slotLabels (id desc : String) : List (String × String) :=
  [("id", id), ("slot_description", desc)]

/-- The three-label set of the work-unit metrics. -/
def wuLabels (id desc prcg : String) : List (String × String) :=
  [("id", id), ("slot_description", desc), ("prcg", prcg)]

/-- The metrics emitted for one queue entry by the loop body of
parseQueueInfo (src/main.go lines 277-305): slot id and description are
resolved through the slot map (zero values on a miss), the prcg display
label is formatted from the identity quadruple, and emission is gated on
the normalized state and on the quadruple being nonzero. A percent text
that fails float conversion is skipped silently. -/
def queueEntryMetrics (slotInfo : List SlotInfo) (q : SlotQueueInfo) : List Metric :=
  let sl := slotLookup slotInfo q.Slot
  let id := sl.ID
  let desc := sl.Description
  let prcg := toString q.Project ++ " (" ++ toString q.Run ++ ", " ++
    toString q.Clone ++ ", " ++ toString q.Gen ++ ")"
  let state := goToLower q.State
  (if state = "download" then
    [⟨slotAttemptsName, slotLabels id desc, (q.Attempts : Rat)⟩,
     ⟨slotNextAttemptName, slotLabels id desc, durationSeconds q.NextAttempt⟩]
   else []) ++
  (if state = "running" ∨ state = "finishing" then
    [⟨slotPPDName, slotLabels id desc, (q.PPD : Rat)⟩]
   else []) ++
  (if ¬(q.Project = 0 ∧ q.Run = 0 ∧ q.Clone = 0 ∧ q.Gen = 0) then
    (match goParseFloat (trimPercentSuffix q.PercentDone) with
     | some percentDone => [⟨wuPercentName, wuLabels id desc prcg, percentDone⟩]
     | none => []) ++
    [⟨wuCreditName, wuLabels id desc prcg, (q.CreditEstimate : Rat)⟩,
     ⟨wuEtaName, wuLabels id desc prcg, durationSeconds q.ETA⟩,
     ⟨wuTimeRemainingName, wuLabels id desc prcg, durationSeconds q.TimeRemaining⟩]
   else [])

/-- parseQueueInfo (src/main.go lines 272-306): join every queue entry
against the slot map and emit its gated metrics; never an error. -/
def parseQueueInfo (slotInfo : List SlotInfo) (queueInfo : List SlotQueueInfo) :
    List Metric × ParseOut :=
  (queueInfo.flatMap (queueEntryMetrics slotInfo), .ok)

/-- One poll's external inputs: whether fahapi.NewAPI succeeds, and the
result of each of the five queries (error means the query failed and the
corresponding variable keeps its zero value). -/
structure Behavior where
  conn : Bool
  uptimeQ : Except Unit String
  dateQ : Except Unit String
  infoQ : Except Unit (List (List GoVal))
  slotQ : Except Unit (List SlotInfo)
  queueQ : Except Unit (List SlotQueueInfo)

/-- Whether a query succeeded. -/
def isOkB {α : Type} : Except Unit α → Bool
  | .ok _ => true
  | .error _ => false

/-- The value a Go multiple-assignment leaves in the variable: the query
result on success, the zero-value substitute on failure. -/
def exceptValue {α : Type} : Except Unit α → α → α
  | .ok a, _ => a
  | .error _, d => d

/-- Result of one Collect call: the metrics sent on the channel before
return (or before the panic), whether a panic escaped, and how many
queries were issued against the client. -/
structure CollectResult where
  metrics : List Metric
  panicked : Bool
  queriesIssued : Nat
deriving DecidableEq, Repr

/-- The availability gauge. -/
def upMetric (v : Rat) : Metric := ⟨upName, [], v⟩

/-- Collect (src/main.go lines 144-197): on connection failure emit only
availability 0; otherwise issue the five queries (failures logged, zero
substitutes kept, availability degraded), run the five parsers in order,
and emit the availability gauge last. A panic in parseInfo escapes after
the earlier metrics were already sent. -/
def Collect (b : Behavior) : CollectResult :=
  if b.conn then
    let uptime := exceptValue b.uptimeQ ""
    let date := exceptValue b.dateQ ""
    let info := exceptValue b.infoQ []
    let slotInfo := exceptValue b.slotQ []
    let queueInfo := exceptValue b.queueQ []
    let pu := parseUptime uptime
    let pd := parseDate date
    let pinfo := parseInfo info
    if pinfo.2 = ParseOut.panic then
      { metrics := pu.1 ++ pd.1 ++ pinfo.1, panicked := true, queriesIssued := 5 }
    else
      let ps := parseSlotInfo slotInfo
      let pq := parseQueueInfo slotInfo queueInfo
      let up : Rat :=
        if isOkB b.uptimeQ && isOkB b.dateQ && isOkB b.infoQ && isOkB b.slotQ &&
           isOkB b.queueQ && (pu.2 == ParseOut.ok) && (pd.2 == ParseOut.ok) &&
           (pinfo.2 == ParseOut.ok) && (ps.2 == ParseOut.ok) && (pq.2 == ParseOut.ok)
        then 1 else 0
      { metrics := pu.1 ++ pd.1 ++ pinfo.1 ++ ps.1 ++ pq.1 ++ [upMetric up],
        panicked := false, queriesIssued := 5 }
  else
    { metrics := [upMetric 0], panicked := false, queriesIssued := 0 }

/-- The availability condition of one poll, as Collect computes it: every
query succeeded and every parser reported no error. -/
def allStepsOk (b : Behavior) : Bool :=
  isOkB b.uptimeQ && isOkB b.dateQ && isOkB b.infoQ && isOkB b.slotQ &&
  isOkB b.queueQ && ((parseUptime (exceptValue b.uptimeQ "")).2 == ParseOut.ok) &&
  ((parseDate (exceptValue b.dateQ "")).2 == ParseOut.ok) &&
  ((parseInfo (exceptValue b.infoQ [])).2 == ParseOut.ok) &&
  ((parseSlotInfo (exceptValue b.slotQ [])).2 == ParseOut.ok) &&
  ((parseQueueInfo (exceptValue b.slotQ []) (exceptValue b.queueQ [])).2 == ParseOut.ok)

/-- Well-formedness of one info pair for the panic-freedom analysis: a
list headed by a string key, with a string value present when the key is
Version. -/
def pairWF : GoVal → Bool
  | .list (.str k :: rest) =>
    if k = "Version" then
      match rest with
      | .str _ :: _ => true
      | _ => false
    else true
  | _ => false

/-- Well-formedness of one info section: nonempty, string head, all pair
elements well-formed. -/
def sectionWF : List GoVal → Bool
  | [] => false
  | h :: tail =>
    match h with
    | .str _ => tail.all pairWF
    | _ => false

/-- Well-formedness of an info tree: every section well-formed. -/
def infoWF (info : List (List GoVal)) : Bool := info.all sectionWF

/-- Whether a metric name is one of the four work-unit metric names. -/
def isWorkUnitMetricName (n : String) : Bool :=
  n == wuPercentName || n == wuCreditName || n == wuEtaName || n == wuTimeRemainingName

/-- A well-formed info tree carrying a FAHClient Version entry. -/
def healthyInfoTree : List (List GoVal) :=
  [[GoVal.str "FAHClient", GoVal.list [GoVal.str "Version", GoVal.str "7.6.9"]]]

/-- Two slot records, one with a status outside the table. -/
def demoSlots : List SlotInfo := [⟨"00", "cpu:0", "READY"⟩, ⟨"01", "gpu:0", "strange"⟩]

/-- A queue entry in state RUNNING with the nonzero quadruple 9999,1,2,3
and a valid percent string. -/
def runningEntry : SlotQueueInfo :=
  ⟨"00", "RUNNING", 9999, 1, 2, 3, 0, 0, 1234, "50.00%", 5000,
   3600000000000, 7200000000000⟩

/-- A queue entry with the all-zero identity quadruple, in state download. -/
def zeroQuadEntry : SlotQueueInfo :=
  ⟨"00", "download", 0, 0, 0, 0, 7, 30000000000, 0, "", 0, 0, 0⟩

/-- A queue entry in state RUNNING whose slot id matches no slot record
of demoSlots. -/
def danglingEntry : SlotQueueInfo :=
  ⟨"99", "RUNNING", 9999, 1, 2, 3, 0, 0, 1234, "50.00%", 5000,
   3600000000000, 7200000000000⟩

/-- A poll whose connection fails to open. -/
def connFailPoll : Behavior :=
  ⟨false, Except.error (), Except.error (), Except.error (), Except.error (),
   Except.error ()⟩

/-- A poll whose connection opens but whose five queries all fail. -/
def allQueriesFailPoll : Behavior :=
  ⟨true, Except.error (), Except.error (), Except.error (), Except.error (),
   Except.error ()⟩

/-- A poll in which every query succeeds with well-formed data. -/
def healthyPoll : Behavior :=
  ⟨true, Except.ok "1h2m3s", Except.ok "2020-05-09T20:04:48Z",
   Except.ok healthyInfoTree, Except.ok demoSlots, Except.ok []⟩

/-- A poll whose queue holds a running entry, so that Collect emits the
estimated-points-per-day metric. -/
def ppdPoll : Behavior :=
  ⟨true, Except.error (), Except.error (), Except.error (), Except.ok [],
   Except.ok [runningEntry]⟩

theorem mem_parseUptime_name {s : String} {m : Metric}
    (hm : m ∈ (parseUptime s).1) : m.name = uptimeName := by
  unfold parseUptime at hm
  split at hm <;> simp_all

theorem mem_parseDate_name {s : String} {m : Metric}
    (hm : m ∈ (parseDate s).1) : m.name = timeName := by
  unfold parseDate at hm
  split at hm <;> simp_all

theorem mem_parseInfo_name {info : List (List GoVal)} {m : Metric}
    (hm : m ∈ (parseInfo info).1) : m.name = versionName := by
  unfold parseInfo at hm
  split at hm <;> simp_all

theorem mem_parseSlotInfo_name {l : List SlotInfo} {m : Metric}
    (hm : m ∈ (parseSlotInfo l).1) : m.name = slotStatusName := by
  unfold parseSlotInfo at hm
  simp only [List.mem_map] at hm
  obtain ⟨s, _, rfl⟩ := hm
  rfl

theorem mem_queueEntryMetrics_name {sl : List SlotInfo} {q : SlotQueueInfo} {m : Metric}
    (hm : m ∈ queueEntryMetrics sl q) :
    m.name = slotAttemptsName ∨ m.name = slotNextAttemptName ∨ m.name = slotPPDName ∨
    m.name = wuPercentName ∨ m.name = wuCreditName ∨ m.name = wuEtaName ∨
    m.name = wuTimeRemainingName := by
  unfold queueEntryMetrics at hm
  simp only [List.mem_append] at hm
  rcases hm with (h | h) | h
  · split at h
    · simp only [List.mem_cons, List.not_mem_nil, or_false] at h
      rcases h with rfl | rfl
      · exact Or.inl rfl
      · exact Or.inr (Or.inl rfl)
    · simp at h
  · split at h
    · simp only [List.mem_cons, List.not_mem_nil, or_false] at h
      subst h
      exact Or.inr (Or.inr (Or.inl rfl))
    · simp at h
  · split at h
    · simp only [List.mem_append] at h
      rcases h with h | h
      · split at h
        · simp only [List.mem_cons, List.not_mem_nil, or_false] at h
          subst h
          exact Or.inr (Or.inr (Or.inr (Or.inl rfl)))
        · simp at h
      · simp only [List.mem_cons, List.not_mem_nil, or_false] at h
        rcases h with rfl | rfl | rfl
        · exact Or.inr (Or.inr (Or.inr (Or.inr (Or.inl rfl))))
        · exact Or.inr (Or.inr (Or.inr (Or.inr (Or.inr (Or.inl rfl)))))
        · exact Or.inr (Or.inr (Or.inr (Or.inr (Or.inr (Or.inr rfl)))))
    · simp at h

theorem mem_parseQueueInfo_name {sl : List SlotInfo} {qs : List SlotQueueInfo} {m : Metric}
    (hm : m ∈ (parseQueueInfo sl qs).1) :
    m.name = slotAttemptsName ∨ m.name = slotNextAttemptName ∨ m.name = slotPPDName ∨
    m.name = wuPercentName ∨ m.name = wuCreditName ∨ m.name = wuEtaName ∨
    m.name = wuTimeRemainingName := by
  unfold parseQueueInfo at hm
  simp only [List.mem_flatMap] at hm
  obtain ⟨q, _, hq⟩ := hm
  exact mem_queueEntryMetrics_name hq

theorem scanPairs_no_panic {pairs : List GoVal} (h : pairs.all pairWF = true) :
    scanPairs pairs ≠ InfoStep.panic := by
  induction pairs with
  | nil => simp [scanPairs]
  | cons p rest ih =>
    simp only [List.all_cons, Bool.and_eq_true] at h
    obtain ⟨hp, hrest⟩ := h
    cases p with
    | str s => simp [pairWF] at hp
    | other => simp [pairWF] at hp
    | list tp =>
      cases tp with
      | nil => simp [pairWF] at hp
      | cons k rest2 =>
        cases k with
        | list l => simp [pairWF] at hp
        | other => simp [pairWF] at hp
        | str ks =>
          by_cases hks : ks = "Version"
          · subst hks
            simp only [pairWF, if_pos rfl] at hp
            cases rest2 with
            | nil => simp at hp
            | cons v tail =>
              cases v with
              | str vs => simp [scanPairs]
              | list l => simp at hp
              | other => simp at hp
          · simpa [scanPairs, hks] using ih hrest

theorem scanSections_no_panic {info : List (List GoVal)} (h : infoWF info = true) :
    scanSections info ≠ InfoStep.panic := by
  induction info with
  | nil => simp [scanSections]
  | cons sec rest ih =>
    simp only [infoWF, List.all_cons, Bool.and_eq_true] at h
    obtain ⟨hsec, hrest⟩ := h
    cases sec with
    | nil => simp [sectionWF] at hsec
    | cons hd tail =>
      cases hd with
      | list l => simp [sectionWF] at hsec
      | other => simp [sectionWF] at hsec
      | str hs =>
        simp only [sectionWF] at hsec
        by_cases hfc : hs = "FAHClient"
        · subst hfc
          have hnp := scanPairs_no_panic hsec
          simp only [scanSections, if_pos rfl]
          cases hsp : scanPairs tail with
          | panic => exact absurd hsp hnp
          | found v => simp
          | notFound => simpa using ih hrest
        · simpa [scanSections, hfc] using ih hrest

theorem parseInfo_no_panic {info : List (List GoVal)} (h : infoWF info = true) :
    (parseInfo info).2 ≠ ParseOut.panic := by
  have hnp := scanSections_no_panic h
  unfold parseInfo
  cases hs : scanSections info with
  | panic => exact absurd hs hnp
  | found v => simp
  | notFound => simp

/-- C1 (counterexample): on a poll whose connection opens and whose info
tree contains an empty section, Collect terminates by an uncontrolled
panic (the section head index is out of range), so collect() does not
absorb every failure into the availability signal. -/
theorem collect_panics_on_empty_info_section :
    (Collect ⟨true, Except.ok "", Except.ok "", Except.ok [[]], Except.ok [],
      Except.ok []⟩).panicked = true := by decide

/-- C1 (amended): collect() terminates normally — every failure absorbed
into the availability signal — for every input whose info tree is
well-formed: each section nonempty with a string first element, and each
further section element a list headed by a string key, with a string
value present when that key is Version. The restriction to well-formed
trees cannot be dropped: some malformed trees, such as the one whose
first section is empty in the counterexample, make collect() panic
(though not every malformed tree does — the scan stops at the first
Version entry and does not examine elements of other sections). -/
theorem collect_no_panic_of_wellformed_info (b : Behavior)
    (h : infoWF (exceptValue b.infoQ []) = true) :
    (Collect b).panicked = false := by
  by_cases hc : b.conn
  · have hnp := parseInfo_no_panic h
    simp [Collect, hc, hnp]
  · simp [Collect, hc]

/-- C1 (witness): a concrete poll with a well-formed info tree and all
five queries failing terminates normally. -/
theorem collect_no_panic_witness :
    (Collect ⟨true, Except.error (), Except.error (), Except.ok healthyInfoTree,
      Except.error (), Except.error ()⟩).panicked = false :=
  collect_no_panic_of_wellformed_info _ (by decide)

/-- C3: when opening the client fails, collect() emits exactly one
metric — the availability gauge with value 0 — issues no queries, and
terminates normally. -/
theorem collect_conn_failure_single_up_zero (b : Behavior) (h : b.conn = false) :
    (Collect b).metrics = [upMetric 0] ∧ (Collect b).queriesIssued = 0 ∧
    (Collect b).panicked = false := by
  simp [Collect, h]

/-- C3 (witness): the concrete poll whose connection fails. -/
theorem collect_conn_failure_witness :
    (Collect connFailPoll).metrics = [upMetric 0] ∧
    (Collect connFailPoll).queriesIssued = 0 ∧
    (Collect connFailPoll).panicked = false :=
  collect_conn_failure_single_up_zero connFailPoll rfl

/-- C5 (counterexample): the slot-list and queue-list parsers do NOT fail
closed on the empty substitute produced by a failed query — both report
success on it, refuting the claim that each of the five parsers reports
a parse failure on its substitute. -/
theorem slot_queue_parsers_accept_empty_substitute :
    (parseSlotInfo []).2 ≠ ParseOut.err ∧ (parseQueueInfo [] []).2 ≠ ParseOut.err := by
  decide

/-- C5 (amended): on the empty/zero substitute of a failed query, the
uptime, date and info parsers fail closed (report a parse failure),
while the slot-list and queue-list parsers accept the substitute and
emit nothing; a poll whose five queries all fail therefore emits only
the availability gauge with value 0 and terminates normally. -/
theorem failed_query_substitutes_fail_closed :
    (parseUptime "").2 = ParseOut.err ∧
    (parseDate "").2 = ParseOut.err ∧
    (parseInfo []).2 = ParseOut.err ∧
    parseSlotInfo [] = ([], ParseOut.ok) ∧
    parseQueueInfo [] [] = ([], ParseOut.ok) ∧
    (Collect allQueriesFailPoll).metrics = [upMetric 0] ∧
    (Collect allQueriesFailPoll).panicked = false := by
  decide

/-- C7: the uptime parser strips the optional trailing continuation
backslash and all internal spaces and converts the compact h/m/s text to
one metric holding the total seconds — 1h2m3s gives 3723 and the raw
reply 14h 31m  2s with a trailing backslash gives 52262 — while
unparsable text and a days unit yield a parse error and no metric. -/
theorem uptime_parser_examples :
    parseUptime "1h2m3s" = ([⟨uptimeName, [], 3723⟩], ParseOut.ok) ∧
    parseUptime "14h 31m  2s\\" = ([⟨uptimeName, [], 52262⟩], ParseOut.ok) ∧
    parseUptime "garbage" = ([], ParseOut.err) ∧
    parseUptime "2d3h" = ([], ParseOut.err) ∧
    parseUptime "1d" = ([], ParseOut.err) := by
  decide

/-- C8 (counterexample): the date parser maps 2020-05-09T20:04:48Z to
Unix epoch 1589054688, not 1589053488 as the claim states (the claimed
value corresponds to 19:44:48Z). -/
theorem date_parser_epoch_counterexample :
    parseDate "2020-05-09T20:04:48Z" ≠ ([⟨timeName, [], 1589053488⟩], ParseOut.ok) ∧
    parseDate "2020-05-09T20:04:48Z" = ([⟨timeName, [], 1589054688⟩], ParseOut.ok) := by
  decide

/-- C8 (amended): the date parser, after the same trailing-character
stripping, converts an RFC 3339 timestamp to one metric holding the Unix
epoch seconds — 2020-05-09T20:04:48Z gives 1589054688 (not 1589053488),
with or without the trailing continuation backslash — and text not in
that format yields a parse error and no metric. -/
theorem date_parser_examples :
    parseDate "2020-05-09T20:04:48Z" = ([⟨timeName, [], 1589054688⟩], ParseOut.ok) ∧
    parseDate "2020-05-09T20:04:48Z\\" = ([⟨timeName, [], 1589054688⟩], ParseOut.ok) ∧
    parseDate "garbage" = ([], ParseOut.err) ∧
    parseDate "2020-13-09T20:04:48Z" = ([], ParseOut.err) ∧
    parseDate "" = ([], ParseOut.err) := by
  decide

/-- C10: Describe sends exactly eleven of the exporter's twelve metric
descriptors — all but foldingathome_slot_estimated_points_per_day —
although Collect can emit a metric for that descriptor (here for a queue
entry in state running). -/
theorem describe_omits_ppd_descriptor :
    describedDescriptors.length = 11 ∧
    exporterDescriptors.length = 12 ∧
    describedDescriptors = exporterDescriptors.erase slotPPDName ∧
    slotPPDName ∉ describedDescriptors ∧
    slotPPDName ∈ (Collect ppdPoll).metrics.map Metric.name := by
  decide

/-- C6: the slot status parser emits exactly one status gauge per slot,
labeled by id and description, valued by the table image of the
lowercased status text (ready 1, download 2, running 3, upload 4,
finishing 5, stopping 6, paused 7; any other text, the argument s here,
maps to 0), and it never returns an error. -/
theorem slot_status_parser_spec (l : List SlotInfo) (s : String)
    (hs : s ∉ (["ready", "download", "running", "upload", "finishing",
      "stopping", "paused"] : List String)) :
    (parseSlotInfo l).2 = ParseOut.ok ∧
    (parseSlotInfo l).1 = l.map slotStatusMetric ∧
    statusMap "ready" = 1 ∧ statusMap "download" = 2 ∧ statusMap "running" = 3 ∧
    statusMap "upload" = 4 ∧ statusMap "finishing" = 5 ∧ statusMap "stopping" = 6 ∧
    statusMap "paused" = 7 ∧ statusMap s = 0 := by
  refine ⟨rfl, rfl, by decide, by decide, by decide, by decide, by decide,
    by decide, by decide, ?_⟩
  simp only [List.mem_cons, List.not_mem_nil, or_false, not_or] at hs
  obtain ⟨h1, h2, h3, h4, h5, h6, h7⟩ := hs
  simp [statusMap, h1, h2, h3, h4, h5, h6, h7]

/-- C6 (witness): the two demo slots, one of unknown status, and the
unmapped status text bogus. -/
theorem slot_status_parser_spec_witness :
    (parseSlotInfo demoSlots).2 = ParseOut.ok ∧
    (parseSlotInfo demoSlots).1 = demoSlots.map slotStatusMetric ∧
    statusMap "ready" = 1 ∧ statusMap "download" = 2 ∧ statusMap "running" = 3 ∧
    statusMap "upload" = 4 ∧ statusMap "finishing" = 5 ∧ statusMap "stopping" = 6 ∧
    statusMap "paused" = 7 ∧ statusMap "bogus" = 0 :=
  slot_status_parser_spec demoSlots "bogus" (by decide)

theorem slotLookup_eq_zero {sl : List SlotInfo} {k : String}
    (h : ∀ s ∈ sl, s.ID ≠ k) : slotLookup sl k = zeroSlot := by
  unfold slotLookup
  have hnil : sl.filter (fun s => s.ID == k) = [] := by
    apply List.filter_eq_nil_iff.mpr
    intro a ha
    simpa using h a ha
  rw [hnil]
  rfl

theorem queueEntryMetrics_nil_labels (q : SlotQueueInfo) :
    (queueEntryMetrics [] q).all
      (fun m => m.labels.take 2 == [("id", ""), ("slot_description", "")]) = true := by
  unfold queueEntryMetrics
  repeat' split
  all_goals simp [slotLabels, wuLabels, slotLookup, zeroSlot]
  all_goals rintro x - (rfl | rfl)
  all_goals rfl

/-- C9: a queue record whose slot id matches no slot record still emits
exactly the metrics its state and identity quadruple gate open (the same
metrics as under an empty slot list), all carrying empty id and
slot_description labels, and the joiner reports no error. -/
theorem dangling_slot_id_empty_labels (sl : List SlotInfo) (q : SlotQueueInfo)
    (h : ∀ s ∈ sl, s.ID ≠ q.Slot) :
    queueEntryMetrics sl q = queueEntryMetrics [] q ∧
    (queueEntryMetrics sl q).all
      (fun m => m.labels.take 2 == [("id", ""), ("slot_description", "")]) = true ∧
    (parseQueueInfo sl [q]).2 = ParseOut.ok := by
  have h1 : slotLookup sl q.Slot = zeroSlot := slotLookup_eq_zero h
  have heq : queueEntryMetrics sl q = queueEntryMetrics [] q := by
    unfold queueEntryMetrics
    rw [h1]
    rfl
  refine ⟨heq, ?_, rfl⟩
  rw [heq]
  exact queueEntryMetrics_nil_labels q

/-- C9 (witness): the dangling entry whose slot id 99 matches neither
demo slot. -/
theorem dangling_slot_id_witness :
    queueEntryMetrics demoSlots danglingEntry = queueEntryMetrics [] danglingEntry ∧
    (queueEntryMetrics demoSlots danglingEntry).all
      (fun m => m.labels.take 2 == [("id", ""), ("slot_description", "")]) = true ∧
    (parseQueueInfo demoSlots [danglingEntry]).2 = ParseOut.ok :=
  dangling_slot_id_empty_labels demoSlots danglingEntry (by decide)

/-- C4: a queue entry with the all-zero identity quadruple never yields
any of the four work-unit metrics, regardless of its state; and a queue
entry with a nonzero quadruple, normalized state running and a percent
string that converts, yields exactly estimated-points-per-day followed
by all four work-unit metrics — neither attempts nor
next-attempt-seconds. -/
theorem queue_gating_quadruple :
    (∀ (sl : List SlotInfo) (q : SlotQueueInfo),
      q.Project = 0 → q.Run = 0 → q.Clone = 0 → q.Gen = 0 →
      ((queueEntryMetrics sl q).map Metric.name).all
        (fun n => !(isWorkUnitMetricName n)) = true) ∧
    (∀ (sl : List SlotInfo) (q : SlotQueueInfo),
      ¬(q.Project = 0 ∧ q.Run = 0 ∧ q.Clone = 0 ∧ q.Gen = 0) →
      goToLower q.State = "running" →
      (goParseFloat (trimPercentSuffix q.PercentDone)).isSome = true →
      (queueEntryMetrics sl q).map Metric.name =
        [slotPPDName, wuPercentName, wuCreditName, wuEtaName, wuTimeRemainingName]) := by
  constructor
  · intro sl q h1 h2 h3 h4
    simp only [queueEntryMetrics, h1, h2, h3, h4, and_self, not_true_eq_false,
      if_false, List.append_nil]
    repeat' split
    all_goals simp only [List.map_append, List.map_cons, List.map_nil,
      List.nil_append, List.append_nil, List.all_append, List.all_cons, List.all_nil]
    all_goals decide
  · intro sl q hquad hstate hsome
    obtain ⟨pd, hpd⟩ := Option.isSome_iff_exists.mp hsome
    simp only [queueEntryMetrics, hstate, hpd, if_pos hquad]
    rw [if_neg (by decide : ¬("running" : String) = "download")]
    simp only [true_or, if_true, List.nil_append, List.cons_append,
      List.map_cons, List.map_nil]

/-- C4 (witness): the zero-quadruple entry yields no work-unit metric and
the running entry with quadruple 9999,1,2,3 yields exactly
points-per-day plus the four work-unit metrics. -/
theorem queue_gating_quadruple_witness :
    ((queueEntryMetrics [] zeroQuadEntry).map Metric.name).all
      (fun n => !(isWorkUnitMetricName n)) = true ∧
    (queueEntryMetrics [] runningEntry).map Metric.name =
      [slotPPDName, wuPercentName, wuCreditName, wuEtaName, wuTimeRemainingName] :=
  ⟨queue_gating_quadruple.1 [] zeroQuadEntry rfl rfl rfl rfl,
   queue_gating_quadruple.2 [] runningEntry (by decide) (by decide) (by decide)⟩

theorem filter_up_nil {l : List Metric} (h : ∀ m ∈ l, m.name ≠ upName) :
    l.filter (fun m => m.name == upName) = [] :=
  List.filter_eq_nil_iff.mpr (fun m hm => by simpa using h m hm)

theorem not_up_parseUptime {s : String} : ∀ m ∈ (parseUptime s).1, m.name ≠ upName :=
  fun _ hm => by rw [mem_parseUptime_name hm]; decide

theorem not_up_parseDate {s : String} : ∀ m ∈ (parseDate s).1, m.name ≠ upName :=
  fun _ hm => by rw [mem_parseDate_name hm]; decide

theorem not_up_parseInfo {info : List (List GoVal)} :
    ∀ m ∈ (parseInfo info).1, m.name ≠ upName :=
  fun _ hm => by rw [mem_parseInfo_name hm]; decide

theorem not_up_parseSlotInfo {l : List SlotInfo} :
    ∀ m ∈ (parseSlotInfo l).1, m.name ≠ upName :=
  fun _ hm => by rw [mem_parseSlotInfo_name hm]; decide

theorem not_up_parseQueueInfo {sl : List SlotInfo} {qs : List SlotQueueInfo} :
    ∀ m ∈ (parseQueueInfo sl qs).1, m.name ≠ upName := by
  intro m hm
  rcases mem_parseQueueInfo_name hm with h | h | h | h | h | h | h <;> rw [h] <;> decide

theorem getLast?_append_some {α : Type} {l₂ : List α} {a : α} (l₁ : List α)
    (h : l₂.getLast? = some a) : (l₁ ++ l₂).getLast? = some a := by
  rw [List.getLast?_append_of_ne_nil l₁ (fun hn => by simp [hn] at h)]
  exact h

/-- C2 (counterexample): a poll whose connection opens but whose info
tree holds a non-string section head panics before the availability
gauge is emitted; the metric stream of that poll contains no
foldingathome_up sample at all, refuting that it is emitted exactly once
whenever the connection opens. -/
theorem up_gauge_missing_on_info_panic :
    (Collect ⟨true, Except.ok "1h2m3s", Except.ok "2020-05-09T20:04:48Z",
      Except.ok [[GoVal.other]], Except.ok [], Except.ok []⟩).metrics.filter
      (fun m => m.name == upName) = [] := by decide

/-- C2 (amended): for every poll in which the connection opens and the
collector terminates normally, the availability gauge foldingathome_up
is emitted exactly once and after all other metrics of that poll, with
value 1 when the five queries and the five parses all succeeded and 0
when any single query or parse failed. -/
theorem up_gauge_last_and_unique (b : Behavior) (hc : b.conn = true)
    (hp : (Collect b).panicked = false) :
    (Collect b).metrics.filter (fun m => m.name == upName) =
      [upMetric (if allStepsOk b then 1 else 0)] ∧
    (Collect b).metrics.getLast? = some (upMetric (if allStepsOk b then 1 else 0)) := by
  by_cases hpan : (parseInfo (exceptValue b.infoQ [])).2 = ParseOut.panic
  · exfalso
    simp [Collect, hc, hpan] at hp
  · have hm : (Collect b).metrics =
        (parseUptime (exceptValue b.uptimeQ "")).1 ++
        (parseDate (exceptValue b.dateQ "")).1 ++
        (parseInfo (exceptValue b.infoQ [])).1 ++
        (parseSlotInfo (exceptValue b.slotQ [])).1 ++
        (parseQueueInfo (exceptValue b.slotQ []) (exceptValue b.queueQ [])).1 ++
        [upMetric (if allStepsOk b then 1 else 0)] := by
      simp only [Collect, hc, hpan, allStepsOk, if_true, if_false, ite_true,
        ite_false, eq_self_iff_true, not_false_iff]
    constructor
    · rw [hm, List.filter_append, List.filter_append, List.filter_append,
        List.filter_append, List.filter_append, filter_up_nil not_up_parseUptime,
        filter_up_nil not_up_parseDate, filter_up_nil not_up_parseInfo,
        filter_up_nil not_up_parseSlotInfo, filter_up_nil not_up_parseQueueInfo]
      simp [upMetric]
    · rw [hm]
      exact getLast?_append_some _ rfl

/-- C2 (witness): the healthy poll emits the availability gauge exactly
once, last. -/
theorem up_gauge_last_and_unique_witness :
    (Collect healthyPoll).metrics.filter (fun m => m.name == upName) =
      [upMetric (if allStepsOk healthyPoll then 1 else 0)] ∧
    (Collect healthyPoll).metrics.getLast? =
      some (upMetric (if allStepsOk healthyPoll then 1 else 0)) :=
  up_gauge_last_and_unique healthyPoll rfl (by decide)
